import Mathlib

/-!
Verification development for the Plastic NES emulator repository.

The repository's `src/` holds the `Mapper` trait declaration
(`src/cartridge/src/mapper.rs`) and the egui front end
(`src/plastic_ui/src/main.rs`).  The emulator core (`plastic_core`: the
`NES` machine, mappers, CPU/PPU/APU) is not under `src/`; where a property
depends on that code, the definitions below are modelled from the design
spec and say so in their doc comment.  Machine integers are `Nat` with
explicit `% 2^w` where overflow matters; fallible operations return
`Except`/`Option`; filesystem and UI effects are passed as explicit inputs.
-/

/-- Embeds `common::Device` (used by `src/cartridge/src/mapper.rs`):
distinguishes CPU-address-space accesses from PPU-address-space accesses. -/
inductive Device
  | cpu
  | ppu
deriving DecidableEq

/-- Embeds the `Mapper` trait (src/cartridge/src/mapper.rs lines 3-8) as an
interface record over a mapper-state type `σ`.  `map_read` takes the state
immutably and returns only the resolved `u16` offset; `map_write` returns
the updated mapper state (the source declares a `&self` receiver with the
comment "used for mapping internal changes", so implementations mutate
internal registers through interior mutability; the shallow embedding makes
that mutation explicit state passing). -/
structure Mapper (σ : Type) where
  init : Nat → Nat → σ
  map_read : σ → Nat → Device → Nat
  map_write : σ → Nat → Nat → Device → σ

/-- Embeds the calling convention of `Mapper::map_read`
(src/cartridge/src/mapper.rs line 5): the mapper is passed by shared
reference, so the call yields the resolved address together with the
mapper state it was given, unchanged. -/
def Mapper.readCall {σ : Type} (M : Mapper σ) (s : σ) (a : Nat) (d : Device) :
    Nat × σ :=
  (M.map_read s a d, s)

/-- Size in bytes of the cartridge PRG-RAM window 0x6000-0x7FFF. -/
def RAM_SIZE : Nat := 0x2000

/-- Modelled from the spec: the concrete mapper implementations are absent
from `src/` (only the trait is there).  Representative mapper state per
spec section 4.1 / section 3 "Mapper state": bank-select register, the bank
counts established at `init`, and writable cartridge PRG RAM. -/
structure Mapper2State where
  prgCount : Nat
  chrCount : Nat
  prgBank : Nat
  prgRam : List Nat
deriving DecidableEq

/-- Modelled from the spec (section 4.1): power-on defaults established by
`init` — bank range recorded, bank-select register reset, RAM cleared. -/
def mapper2Init (p c : Nat) : Mapper2State :=
  ⟨p, c, 0, List.replicate RAM_SIZE 0⟩

/-- Modelled from the spec (section 4.1 `map_read`): resolves a CPU- or
PPU-space address to an offset into PRG or CHR storage, honoring the
current bank-select register; 0x8000-0xBFFF is the switchable PRG window,
0xC000-0xFFFF the fixed last bank, 0x6000-0x7FFF the PRG-RAM window. -/
def mapper2Read (s : Mapper2State) (a : Nat) (d : Device) : Nat :=
  match d with
  | Device.ppu => a % 0x2000
  | Device.cpu =>
    if a < 0x6000 then 0
    else if a < 0x8000 then a - 0x6000
    else if a < 0xC000 then (s.prgBank * 0x4000 + (a - 0x8000)) % 65536
    else ((s.prgCount - 1) * 0x4000 + (a - 0xC000)) % 65536

/-- Modelled from the spec (section 4.1 `map_write`): a CPU write at or
above 0x8000 loads the PRG bank-select register (with bank-count
wraparound); a write inside 0x6000-0x7FFF is an actual write to cartridge
PRG RAM; anything else leaves the mapper unchanged. -/
def mapper2Write (s : Mapper2State) (a data : Nat) (d : Device) : Mapper2State :=
  match d with
  | Device.ppu => s
  | Device.cpu =>
    if a < 0x6000 then s
    else if a < 0x8000 then
      { s with prgRam := s.prgRam.set (a - 0x6000) (data % 256) }
    else
      { s with prgBank := data % s.prgCount }

/-- The representative mapper implementation packaged under the trait
interface. -/
def mapper2 : Mapper Mapper2State :=
  ⟨mapper2Init, mapper2Read, mapper2Write⟩

/-- Errors reported by mapper construction/validation. -/
inductive MapperError
  | unsupportedMapper (id : Nat)
  | invalidBankCount
deriving DecidableEq

/-- Modelled from the spec (section 4.1): the catalog of mapper ids with a
known implementation (an extensibility point; representative ids). -/
def supportedMapperIds : List Nat := [0, 1, 2, 4]

/-- Modelled from the spec (sections 4.1 and 7): mapper selection and
bank-count validation at `init` time; `NES::new`/`Cartridge` construction
is absent from `src/`.  Returns a reportable error — never aborts — when
the requested mapper id has no known implementation, and reports
bank-count violations here at load time. -/
def initMapper (id prgCount chrCount : Nat) : Except MapperError Mapper2State :=
  if id ∈ supportedMapperIds then
    if prgCount = 0 then Except.error MapperError.invalidBankCount
    else Except.ok (mapper2Init prgCount chrCount)
  else Except.error (MapperError.unsupportedMapper id)

/-- Dots per NTSC frame: 341 dot-columns times 262 scanlines (spec
section 4.4). -/
def DOTS_PER_FRAME : Nat := 341 * 262

/-- The dot index at which VBlank entry occurs: dot 1 of scanline 241
(spec section 4.4: VBlank flag set at the start of the post-render
scanline). -/
def VBLANK_DOT : Nat := 241 * 341 + 1

/-- Upper bound on CPU cycles per frame: three PPU dots per CPU cycle. -/
def CYCLES_PER_FRAME : Nat := 29781

/-- Modelled from the spec (section 3 "CPU registers"): accumulator, index
registers, stack pointer, program counter, status flags; absent from
`src/`. -/
structure CPUState where
  a : Nat
  x : Nat
  y : Nat
  sp : Nat
  pc : Nat
  status : Nat
deriving DecidableEq

/-- Modelled from the spec (section 3 "PPU state"): control/mask/status
registers, the internal dot counter (0 ≤ dot < DOTS_PER_FRAME combines the
dot/scanline counters), video RAM, object attribute memory and palette
RAM; absent from `src/`. -/
structure PPUState where
  ctrl : Nat
  mask : Nat
  status : Nat
  dot : Nat
  vram : List Nat
  oam : List Nat
  palette : List Nat
deriving DecidableEq

/-- Modelled from the spec (section 3 "APU state"): per-channel oscillator
counters, the frame-sequencer step and the accumulated output sample
buffer; absent from `src/`. -/
structure APUState where
  pulse1 : Nat
  pulse2 : Nat
  triangle : Nat
  noise : Nat
  dmc : Nat
  frameSeq : Nat
  audioBuffer : List Nat
deriving DecidableEq

/-- Modelled from the spec (section 3 "Controller"): the 8-bit button
snapshot latched on strobe and the serial shift position; absent from
`src/`. -/
structure ControllerState where
  buttons : Nat
  shift : Nat
deriving DecidableEq

/-- Modelled from the spec (sections 3 and 4.6): the loaded machine
aggregate — CPU, PPU, APU, controller and mapper state plus an identifier
of the loaded cartridge; absent from `src/`. -/
structure Machine where
  cpu : CPUState
  ppu : PPUState
  apu : APUState
  controller : ControllerState
  mapper : Mapper2State
  cartridgeId : Nat
deriving DecidableEq

/-- Consistency of a loaded machine with its cartridge (spec section 3
"Machine" invariant): positive PRG bank count, bank-select register within
the bank count, full-size cartridge RAM, dot counter within one frame. -/
def Machine.wf (m : Machine) : Bool :=
  decide (0 < m.mapper.prgCount) && decide (m.mapper.prgBank < m.mapper.prgCount)
    && (m.mapper.prgRam.length == RAM_SIZE) && decide (m.ppu.dot < DOTS_PER_FRAME)

/-- Whether one CPU cycle starting at dot `d` crosses the VBlank-entry dot
(the CPU cycle fans out three PPU dots, spec section 4.4). -/
def crossesVBlank (d : Nat) : Bool :=
  ((d + 1) % DOTS_PER_FRAME == VBLANK_DOT) || ((d + 2) % DOTS_PER_FRAME == VBLANK_DOT)
    || ((d + 3) % DOTS_PER_FRAME == VBLANK_DOT)

/-- Modelled from the spec (sections 2 and 4.6): the linear-approximation
APU mixer combining the channel amplitudes into one sample. -/
def apuMix (a : APUState) : Nat :=
  a.pulse1 + a.pulse2 + a.triangle + a.noise + a.dmc

/-- Modelled from the spec (sections 2, 4.4-4.6): one CPU cycle of the
synchronized clock loop — the CPU advances, the PPU advances three dots
(setting the VBlank status bit when entry is crossed) and the APU
appends one output sample; absent from `src/`. -/
def machineCycle (m : Machine) : Machine :=
  { m with
    cpu := { m.cpu with pc := (m.cpu.pc + 1) % 65536 }
    ppu := { m.ppu with
             dot := (m.ppu.dot + 3) % DOTS_PER_FRAME,
             status := (if crossesVBlank m.ppu.dot then m.ppu.status % 128 + 128
                        else m.ppu.status) }
    apu := { m.apu with audioBuffer := m.apu.audioBuffer ++ [apuMix m.apu] } }

/-- Modelled from the spec (section 4.6 `step_frame`): fuel-bounded clock
loop stepping CPU cycles until the PPU signals VBlank entry; returns the
stepped machine, the number of CPU cycles consumed, and whether VBlank
entry was observed before the fuel ran out. -/
def clockFrameAux : Nat → Machine → Machine × Nat × Bool
  | 0, m => (m, 0, false)
  | fuel + 1, m =>
    let entered := crossesVBlank m.ppu.dot
    let m' := machineCycle m
    if entered then (m', 1, true)
    else
      let r := clockFrameAux fuel m'
      (r.1, r.2.1 + 1, r.2.2)

/-- Embeds `self.nes.clock_for_frame()` (called at
src/plastic_ui/src/main.rs line 234); the loop body is modelled from the
spec (section 4.6 `step_frame`). -/
def Machine.clock_for_frame (m : Machine) : Machine × Nat × Bool :=
  clockFrameAux CYCLES_PER_FRAME m

/-- Modelled from the spec (section 4.6 `drain_audio_samples` /
`audio_buffer`, called at src/plastic_ui/src/main.rs lines 187 and 235):
returns the samples accumulated since the previous call and clears the
internal buffer. -/
def drain_audio_samples (m : Machine) : List Nat × Machine :=
  (m.apu.audioBuffer, { m with apu := { m.apu with audioBuffer := [] } })

/-- Modelled from the spec (section 4.6 `reset`, called at
src/plastic_ui/src/main.rs line 178): re-initializes CPU/PPU/APU register
state without discarding cartridge RAM or mapper bank state. -/
def Machine.reset (m : Machine) : Machine :=
  { m with
    cpu := ⟨0, 0, 0, 0xFD, 0, 0x24⟩
    ppu := { m.ppu with ctrl := 0, mask := 0, status := 0, dot := 0 }
    apu := ⟨0, 0, 0, 0, 0, 0, m.apu.audioBuffer⟩ }

/-- Modelled from the spec (section 4.2): the bus routes CPU writes in
cartridge space (0x6000 and above) to `Mapper::map_write` with
`Device::cpu`; other targets do not touch the modelled machine state
components. -/
def Machine.busWrite (m : Machine) (a data : Nat) : Machine :=
  if 0x6000 ≤ a then
    { m with mapper := mapper2.map_write m.mapper a data Device.cpu }
  else m

/-- Version tag written at the head of every save-state stream (spec
section 6 "Save-state binary format"). -/
def STATE_VERSION : Nat := 1

/-- Length-prefixed encoding of a byte list inside a save-state stream. -/
def encList (l : List Nat) : List Nat := l.length :: l

/-- Modelled from the spec (section 6): fixed-order serialization of the
CPU registers/flags. -/
def encCPU (c : CPUState) : List Nat :=
  [c.a, c.x, c.y, c.sp, c.pc, c.status]

/-- Modelled from the spec (section 6): fixed-order serialization of the
PPU internal state plus VRAM/OAM/palette. -/
def encPPU (p : PPUState) : List Nat :=
  [p.ctrl, p.mask, p.status, p.dot] ++ encList p.vram ++ encList p.oam
    ++ encList p.palette

/-- Modelled from the spec (section 6): fixed-order serialization of the
APU channel states and sample accumulator. -/
def encAPU (a : APUState) : List Nat :=
  [a.pulse1, a.pulse2, a.triangle, a.noise, a.dmc, a.frameSeq]
    ++ encList a.audioBuffer

/-- Modelled from the spec (section 6): serialization of the controller
latches. -/
def encController (c : ControllerState) : List Nat :=
  [c.buttons, c.shift]

/-- Modelled from the spec (section 6): serialization of the mapper
register block and the cartridge RAM snapshot. -/
def encMapper (s : Mapper2State) : List Nat :=
  [s.prgCount, s.chrCount, s.prgBank] ++ encList s.prgRam

/-- Modelled from the spec (sections 4.6 and 6): `NES::save_state` (called
at src/plastic_ui/src/main.rs line 91) — the versioned byte stream:
version tag, cartridge identifier, then CPU, PPU, APU, Controller and
Mapper state in fixed order. -/
def Machine.save_state (m : Machine) : List Nat :=
  STATE_VERSION :: m.cartridgeId :: (encCPU m.cpu ++ encPPU m.ppu
    ++ encAPU m.apu ++ encController m.controller ++ encMapper m.mapper)

/-- Reads one scalar from a save-state stream; fails on a truncated
stream. -/
def dNat : List Nat → Option (Nat × List Nat)
  | [] => none
  | n :: rest => some (n, rest)

/-- Reads one length-prefixed list from a save-state stream; fails on a
truncated stream. -/
def dList : List Nat → Option (List Nat × List Nat)
  | [] => none
  | n :: rest =>
    if n ≤ rest.length then some (rest.take n, rest.drop n) else none

/-- Decodes the CPU section of a save-state stream. -/
def dCPU (bs : List Nat) : Option (CPUState × List Nat) := do
  let (a, bs) ← dNat bs
  let (x, bs) ← dNat bs
  let (y, bs) ← dNat bs
  let (sp, bs) ← dNat bs
  let (pc, bs) ← dNat bs
  let (st, bs) ← dNat bs
  return (⟨a, x, y, sp, pc, st⟩, bs)

/-- Decodes the PPU section of a save-state stream. -/
def dPPU (bs : List Nat) : Option (PPUState × List Nat) := do
  let (ctrl, bs) ← dNat bs
  let (mask, bs) ← dNat bs
  let (st, bs) ← dNat bs
  let (dot, bs) ← dNat bs
  let (vram, bs) ← dList bs
  let (oam, bs) ← dList bs
  let (pal, bs) ← dList bs
  return (⟨ctrl, mask, st, dot, vram, oam, pal⟩, bs)

/-- Decodes the APU section of a save-state stream. -/
def dAPU (bs : List Nat) : Option (APUState × List Nat) := do
  let (p1, bs) ← dNat bs
  let (p2, bs) ← dNat bs
  let (tri, bs) ← dNat bs
  let (noi, bs) ← dNat bs
  let (dmc, bs) ← dNat bs
  let (fs, bs) ← dNat bs
  let (buf, bs) ← dList bs
  return (⟨p1, p2, tri, noi, dmc, fs, buf⟩, bs)

/-- Decodes the controller section of a save-state stream. -/
def dController (bs : List Nat) : Option (ControllerState × List Nat) := do
  let (b, bs) ← dNat bs
  let (sh, bs) ← dNat bs
  return (⟨b, sh⟩, bs)

/-- Decodes the mapper section of a save-state stream. -/
def dMapper (bs : List Nat) : Option (Mapper2State × List Nat) := do
  let (p, bs) ← dNat bs
  let (c, bs) ← dNat bs
  let (bank, bs) ← dNat bs
  let (ram, bs) ← dList bs
  return (⟨p, c, bank, ram⟩, bs)

/-- Decodes the body of a save-state stream (everything after the version
tag and cartridge identifier) into a machine for cartridge `cid`. -/
def dMachineBody (cid : Nat) (bs : List Nat) : Option (Machine × List Nat) := do
  let (cpu, bs) ← dCPU bs
  let (ppu, bs) ← dPPU bs
  let (apu, bs) ← dAPU bs
  let (ctrl, bs) ← dController bs
  let (map, bs) ← dMapper bs
  return (⟨cpu, ppu, apu, ctrl, map, cid⟩, bs)

/-- Errors reported by state restore (spec section 7 taxonomy (b)). -/
inductive RestoreError
  | versionMismatch
  | cartridgeMismatch
  | corrupt
deriving DecidableEq

/-- Modelled from the spec (sections 4.6, 6 and 7): `NES::load_state`
(called at src/plastic_ui/src/main.rs line 105) — validates the version
tag, the cartridge identity, stream well-formedness and the decoded bank
invariants, and either returns the fully decoded machine or a reportable
error; it never returns a partially restored machine. -/
def Machine.load_state (m : Machine) (bytes : List Nat) :
    Except RestoreError Machine :=
  match bytes with
  | [] => Except.error RestoreError.corrupt
  | v :: rest =>
    if v ≠ STATE_VERSION then Except.error RestoreError.versionMismatch
    else
      match rest with
      | [] => Except.error RestoreError.corrupt
      | c :: body =>
        if c ≠ m.cartridgeId then Except.error RestoreError.cartridgeMismatch
        else
          match dMachineBody c body with
          | none => Except.error RestoreError.corrupt
          | some (m', _) =>
            if m'.wf then Except.ok m' else Except.error RestoreError.corrupt

/-- All-or-nothing application of a restore to the machine: on any restore
error the machine keeps its prior state (spec section 7 taxonomy (b)). -/
def applyLoadState (m : Machine) (bytes : List Nat) : Machine :=
  match m.load_state bytes with
  | Except.ok m' => m'
  | Except.error _ => m

/-- `plastic_core::nes::NES` as used by src/plastic_ui/src/main.rs: either
empty (no cartridge loaded, `NES::new_without_file`) or a loaded machine
(spec section 3 "Machine" invariant). -/
def NES : Type := Option Machine

/-- Embeds `NES::is_empty` (used at src/plastic_ui/src/main.rs lines 63,
81, 95, 128, 233, 254). -/
def NES.is_empty : NES → Bool
  | none => true
  | some _ => false

/-- The machine invariant (spec section 3): an `NES` is empty, or loaded
with all subcomponents consistent with the cartridge's bank counts. -/
def NES.Inv : NES → Prop
  | none => True
  | some m => m.wf = true

/-- Stepping an `NES` one frame (src/plastic_ui/src/main.rs lines 233-234
only calls `clock_for_frame` on a non-empty machine; modelled from the
spec, stepping an empty machine is a no-op). -/
def NES.clock_for_frame : NES → NES
  | none => none
  | some m => some (Machine.clock_for_frame m).1

/-- Draining the audio buffer of an `NES` (an empty machine yields no
samples). -/
def NES.drain : NES → List Nat × NES
  | none => ([], none)
  | some m =>
    let r := drain_audio_samples m
    (r.1, some r.2)

/-- Embeds `App::load_state` (src/plastic_ui/src/main.rs lines 94-106):
returns immediately when the machine is empty (line 95-97), leaving it
unchanged; otherwise the restore result is `unwrap`ped (line 105) — a
restore error panics, aborting the process (modelled `none` = process
termination), and a success replaces the machine. -/
def NES.load_state_slot : NES → List Nat → Option NES
  | none, _ => some (none : NES)
  | some m, bytes =>
    match m.load_state bytes with
    | Except.ok m' => some (some m' : NES)
    | Except.error _ => none

/-- Resetting an `NES` (src/plastic_ui/src/main.rs line 178). -/
def NES.reset : NES → NES
  | none => none
  | some m => some m.reset

/-- A bus write on an `NES` (empty: no cartridge, no-op). -/
def NES.busWrite : NES → Nat → Nat → NES
  | none, _, _ => none
  | some m, a, d => some (Machine.busWrite m a d)

/-- Errors reported by ROM loading (spec section 7 taxonomy (a)). -/
inductive LoadError
  | malformedHeader
  | unsupportedMapper (id : Nat)
  | truncatedData
  | invalidBanks
deriving DecidableEq

/-- The iNES header magic bytes (spec section 6 "ROM image format"). -/
def INES_MAGIC : List Nat := [0x4E, 0x45, 0x53, 0x1A]

/-- Cartridge identity recorded in save states, derived from the ROM
bytes. -/
def cartId (bytes : List Nat) : Nat :=
  bytes.foldl (fun acc b => (acc * 31 + b) % 65536) 0

/-- Modelled from the spec (sections 4.6 and 6): construction of the
loaded machine after a successful ROM parse — power-on CPU/PPU/APU state
and the mapper produced by `initMapper`. -/
def initialMachine (ms : Mapper2State) (cid : Nat) : Machine :=
  ⟨⟨0, 0, 0, 0xFD, 0, 0x24⟩,
   ⟨0, 0, 0, 0, List.replicate 0x800 0, List.replicate 256 0,
    List.replicate 32 0⟩,
   ⟨0, 0, 0, 0, 0, 0, []⟩,
   ⟨0, 0⟩, ms, cid⟩

/-- Modelled from the spec (sections 4.6, 6 and 7): `NES::new` (called at
src/plastic_ui/src/main.rs lines 118, 175 and 318) — parses the 16-byte
iNES header (magic, PRG/CHR bank counts, mapper id split across flag
bytes), rejects malformed headers, truncated data and unsupported mapper
ids with a reportable error, and otherwise yields the loaded machine. -/
def NES.new (bytes : List Nat) : Except LoadError Machine :=
  if bytes.length < 16 then Except.error LoadError.malformedHeader
  else if bytes.take 4 ≠ INES_MAGIC then Except.error LoadError.malformedHeader
  else
    let prgC := bytes.getD 4 0
    let chrC := bytes.getD 5 0
    let f6 := bytes.getD 6 0
    let f7 := bytes.getD 7 0
    let mapperId := f6 / 16 + (f7 / 16) * 16
    if bytes.length - 16 < prgC * 0x4000 + chrC * 0x2000 then
      Except.error LoadError.truncatedData
    else
      match initMapper mapperId prgC chrC with
      | Except.error (MapperError.unsupportedMapper i) =>
        Except.error (LoadError.unsupportedMapper i)
      | Except.error MapperError.invalidBankCount =>
        Except.error LoadError.invalidBanks
      | Except.ok ms => Except.ok (initialMachine ms (cartId bytes))

/-- Embeds the ROM-loading call in `main`
(src/plastic_ui/src/main.rs lines 316-320): with a CLI argument the app
does `NES::new(&file).unwrap()` — `unwrap` on an `Err` panics, aborting
the process, modelled as `none`; with no argument it starts with the
empty machine. -/
def mainInitNes (file : Option (List Nat)) : Option NES :=
  match file with
  | none => some (none : NES)
  | some rom =>
    match NES.new rom with
    | Except.ok m => some (some m : NES)
    | Except.error _ => none

/-- Embeds the File/Open branch of `show_menu`
(src/plastic_ui/src/main.rs lines 172-176): a picked file is loaded with
`NES::new(file).unwrap()` — a load error panics (modelled `none`),
aborting the process; with no file picked the prior machine is kept. -/
def showMenuOpen (picked : Option (List Nat)) (nes : NES) : Option NES :=
  match picked with
  | none => some nes
  | some rom =>
    match NES.new rom with
    | Except.ok m => some (some m : NES)
    | Except.error _ => none

/-- Embeds `MIN_STATE_SLOT` (src/plastic_ui/src/main.rs line 13). -/
def MIN_STATE_SLOT : Nat := 0

/-- Embeds `MAX_STATE_SLOT` (src/plastic_ui/src/main.rs line 14). -/
def MAX_STATE_SLOT : Nat := 9

/-- Embeds `App::get_present_save_states`
(src/plastic_ui/src/main.rs lines 62-78).  The filesystem is passed
explicitly: `baseDir` stands for the result of `base_save_state_folder()`
and `fileExists i` for the existence test of slot `i`'s file.  Returns
`none` for an empty machine or an unavailable base folder, and otherwise
one `(slot, exists)` pair per slot in `MIN_STATE_SLOT..=MAX_STATE_SLOT`. -/
def get_present_save_states (isEmpty : Bool) (baseDir : Option Unit)
    (fileExists : Nat → Bool) : Option (List (Nat × Bool)) :=
  if isEmpty then none
  else
    match baseDir with
    | none => none
    | some _ =>
      some ((List.range' MIN_STATE_SLOT (MAX_STATE_SLOT + 1 - MIN_STATE_SLOT)).map
        (fun i => (i, fileExists i)))

/-- Embeds the Save State menu (src/plastic_ui/src/main.rs lines 198-213):
`save_state(slot.0)` is invoked exactly for the clicked slots among those
listed by `get_present_save_states`. -/
def saveMenuInvocations (isEmpty : Bool) (baseDir : Option Unit)
    (fileExists clicked : Nat → Bool) : List Nat :=
  match get_present_save_states isEmpty baseDir fileExists with
  | none => []
  | some slots => (slots.filter (fun s => clicked s.1)).map (fun s => s.1)

/-- Embeds the Load State menu (src/plastic_ui/src/main.rs lines 214-226):
`load_state(slot.0)` is invoked exactly for the clicked slots that exist
(`add_enabled(slot.1) ... && slot.1`) among those listed by
`get_present_save_states`. -/
def loadMenuInvocations (isEmpty : Bool) (baseDir : Option Unit)
    (fileExists clicked : Nat → Bool) : List Nat :=
  match get_present_save_states isEmpty baseDir fileExists with
  | none => []
  | some slots =>
    (slots.filter (fun s => s.2 && clicked s.1)).map (fun s => s.1)

/-- Iterated frame stepping, used to compare subsequent frames of two
machines (spec section 8 "Save/load round-trip"). -/
def stepFrames (m : Machine) : Nat → Machine
  | 0 => m
  | n + 1 => stepFrames (Machine.clock_for_frame m).1 n

/-- Number of CPU cycles before the cycle whose three dots cross the
VBlank-entry dot, starting from dot `d` (measure for the frame loop's
termination). -/
def distToVBlank (d : Nat) : Nat :=
  ((VBLANK_DOT - 1 + DOTS_PER_FRAME - d) % DOTS_PER_FRAME) / 3

/-- C1: `map_write` is the operation through which mapper state is
mutated — a CPU write to the bank-select region (0x8000 and above)
updates the bank-select register (and only it), and a CPU write into the
cartridge-RAM window (0x6000-0x7FFF) effects the actual write to
cartridge RAM. -/
theorem map_write_updates_mapper_state (s : Mapper2State) (a data : Nat)
    (hlen : s.prgRam.length = RAM_SIZE) :
    (0x8000 ≤ a →
      (mapper2.map_write s a data Device.cpu).prgBank = data % s.prgCount ∧
      (mapper2.map_write s a data Device.cpu).prgRam = s.prgRam) ∧
    (0x6000 ≤ a → a < 0x8000 →
      ((mapper2.map_write s a data Device.cpu).prgRam)[a - 0x6000]?
          = some (data % 256) ∧
      (mapper2.map_write s a data Device.cpu).prgBank = s.prgBank) := by
  constructor
  · intro h8
    simp only [mapper2, mapper2Write]
    rw [if_neg (by omega), if_neg (by omega)]
    exact ⟨rfl, rfl⟩
  · intro h6 h8
    simp only [mapper2, mapper2Write]
    rw [if_neg (by omega), if_pos h8]
    refine ⟨?_, rfl⟩
    exact List.getElem?_set_eq_of_lt (data % 256)
      (by rw [hlen]; unfold RAM_SIZE; omega)

/-- Witness for C1 at a concrete mapper state and concrete writes. -/
theorem map_write_updates_mapper_state_witness :
    (mapper2.map_write (mapper2Init 4 1) 0x8000 7 Device.cpu).prgBank = 7 % 4 ∧
    ((mapper2.map_write (mapper2Init 4 1) 0x6005 42 Device.cpu).prgRam)[5]?
        = some (42 % 256) := by
  have h1 := map_write_updates_mapper_state (mapper2Init 4 1) 0x8000 7
    (by simp only [mapper2Init, List.length_replicate])
  have h2 := map_write_updates_mapper_state (mapper2Init 4 1) 0x6005 42
    (by simp only [mapper2Init, List.length_replicate])
  refine ⟨(h1.1 (by norm_num)).1, ?_⟩
  have := (h2.2 (by norm_num) (by norm_num)).1
  simpa using this

/-- C2: `map_read` is a pure function of the current mapper state that
does not mutate it — the embedded call returns the resolved offset
together with the state it was given, unchanged, for every mapper
implementation; and for the modelled mapper the resolved offset fits the
declared `u16` return type for every in-range address and device. -/
theorem map_read_pure_no_mutation {σ : Type} (M : Mapper σ) (s : σ) (a : Nat)
    (d : Device) (t : Mapper2State) (ha : a < 65536) :
    M.readCall s a d = (M.map_read s a d, s) ∧
    mapper2.readCall t a d = (mapper2Read t a d, t) ∧
    mapper2.map_read t a d < 65536 := by
  refine ⟨rfl, rfl, ?_⟩
  show mapper2Read t a d < 65536
  cases d with
  | ppu =>
    simp only [mapper2Read]
    omega
  | cpu =>
    simp only [mapper2Read]
    split_ifs <;> omega

/-- Witness for C2 at a concrete mapper, state, address and device. -/
theorem map_read_pure_no_mutation_witness :
    mapper2.readCall (mapper2Init 2 1) 0x8000 Device.cpu
        = (mapper2Read (mapper2Init 2 1) 0x8000 Device.cpu, mapper2Init 2 1) ∧
    mapper2.map_read (mapper2Init 2 1) 0x8000 Device.cpu < 65536 := by
  have h := map_read_pure_no_mutation mapper2 (mapper2Init 2 1) 0x8000
    Device.cpu (mapper2Init 2 1) (by norm_num)
  exact ⟨h.2.1, h.2.2⟩

/-- C3: mapper initialization fails in a reportable, non-crashing way (a
returned error value) when the requested mapper id has no known
implementation, and bank-count violations are reported by the same
load-time validation; a successful `init` yields exactly the power-on
mapper state. -/
theorem init_reports_unknown_mapper (id p c : Nat) :
    (id ∉ supportedMapperIds →
      initMapper id p c = Except.error (MapperError.unsupportedMapper id)) ∧
    (id ∈ supportedMapperIds → p = 0 →
      initMapper id p c = Except.error MapperError.invalidBankCount) ∧
    (∀ s, initMapper id p c = Except.ok s → s = mapper2Init p c) := by
  refine ⟨fun hni => ?_, fun hin hp => ?_, fun s hs => ?_⟩
  · unfold initMapper
    rw [if_neg hni]
  · unfold initMapper
    rw [if_pos hin, if_pos hp]
  · unfold initMapper at hs
    split at hs
    · split at hs
      · cases hs
      · exact (Except.ok.inj hs).symm
    · cases hs

/-- Witness for C3: an unsupported mapper id and a zero bank count are
both reported. -/
theorem init_reports_unknown_mapper_witness :
    initMapper 99 2 1 = Except.error (MapperError.unsupportedMapper 99) ∧
    initMapper 0 0 1 = Except.error MapperError.invalidBankCount := by
  exact ⟨(init_reports_unknown_mapper 99 2 1).1 (by decide),
    (init_reports_unknown_mapper 0 0 1).2.1 (by decide) rfl⟩

/-- C8: `drain_audio_samples` returns exactly the samples accumulated
since the previous call and clears the internal buffer; a second call
with no stepping in between returns an empty buffer, and stepping after a
drain accumulates exactly the newly generated samples. -/
theorem drain_audio_samples_returns_and_clears (m : Machine) :
    (drain_audio_samples m).1 = m.apu.audioBuffer ∧
    (drain_audio_samples m).2.apu.audioBuffer = [] ∧
    (drain_audio_samples (drain_audio_samples m).2).1 = [] ∧
    (drain_audio_samples (machineCycle (drain_audio_samples m).2)).1
        = [apuMix (drain_audio_samples m).2.apu] := by
  refine ⟨rfl, rfl, rfl, ?_⟩
  simp [drain_audio_samples, machineCycle]

/-- Counterexample to C10 as stated: a non-empty machine for which the
save-state base folder cannot be determined or created gets `none` from
`get_present_save_states`, not a ten-entry slot list. -/
theorem get_present_save_states_counterexample :
    get_present_save_states false none (fun _ => false) = none := rfl

/-- C10 (amended): provided the save-state base folder is available,
`get_present_save_states` on a non-empty machine returns one entry per
slot in `MIN_STATE_SLOT..=MAX_STATE_SLOT` (exactly ten, each paired with
that slot's file-existence bit), and the save/load menus only ever invoke
save/load with a slot in that range. -/
theorem save_state_slots_bounded (fe cl : Nat → Bool) (isEmpty : Bool)
    (bd : Option Unit) (h : isEmpty = false) :
    (∃ l, get_present_save_states isEmpty (some ()) fe = some l ∧
       l.map Prod.fst = List.range' MIN_STATE_SLOT (MAX_STATE_SLOT + 1) ∧
       l.length = 10 ∧ ∀ p ∈ l, p.2 = fe p.1) ∧
    (∀ slot ∈ saveMenuInvocations isEmpty bd fe cl,
       MIN_STATE_SLOT ≤ slot ∧ slot ≤ MAX_STATE_SLOT) ∧
    (∀ slot ∈ loadMenuInvocations isEmpty bd fe cl,
       MIN_STATE_SLOT ≤ slot ∧ slot ≤ MAX_STATE_SLOT) := by
  subst h
  refine ⟨⟨(List.range' MIN_STATE_SLOT (MAX_STATE_SLOT + 1)).map
      (fun i => (i, fe i)), ?_, ?_, ?_, ?_⟩, ?_, ?_⟩
  · rfl
  · rw [List.map_map]
    have hid : (Prod.fst ∘ fun i => (i, fe i)) = id := rfl
    rw [hid, List.map_id]
  · simp [MIN_STATE_SLOT, MAX_STATE_SLOT]
  · intro p hp
    rcases List.mem_map.mp hp with ⟨i, _, rfl⟩
    rfl
  · intro slot hs
    cases bd with
    | none => cases hs
    | some u =>
      simp only [saveMenuInvocations, get_present_save_states, if_neg,
        Bool.false_eq_true, not_false_iff, reduceIte] at hs
      rcases List.mem_map.mp hs with ⟨p, hp, rfl⟩
      rcases List.mem_filter.mp hp with ⟨hpmem, _⟩
      rcases List.mem_map.mp hpmem with ⟨i, hi, rfl⟩
      have := List.mem_range'_1.mp hi
      unfold MIN_STATE_SLOT MAX_STATE_SLOT at this ⊢
      omega
  · intro slot hs
    cases bd with
    | none => cases hs
    | some u =>
      simp only [loadMenuInvocations, get_present_save_states, if_neg,
        Bool.false_eq_true, not_false_iff, reduceIte] at hs
      rcases List.mem_map.mp hs with ⟨p, hp, rfl⟩
      rcases List.mem_filter.mp hp with ⟨hpmem, _⟩
      rcases List.mem_map.mp hpmem with ⟨i, hi, rfl⟩
      have := List.mem_range'_1.mp hi
      unfold MIN_STATE_SLOT MAX_STATE_SLOT at this ⊢
      omega

/-- Witness for the amended C10 at concrete filesystem and click
functions. -/
theorem save_state_slots_bounded_witness :
    (∃ l, get_present_save_states false (some ()) (fun _ => false) = some l ∧
       l.map Prod.fst = List.range' MIN_STATE_SLOT (MAX_STATE_SLOT + 1) ∧
       l.length = 10 ∧ ∀ p ∈ l, p.2 = (fun _ => false) p.1) ∧
    (∀ slot ∈ saveMenuInvocations false (some ()) (fun _ => false)
        (fun _ => true), MIN_STATE_SLOT ≤ slot ∧ slot ≤ MAX_STATE_SLOT) ∧
    (∀ slot ∈ loadMenuInvocations false (some ()) (fun _ => false)
        (fun _ => true), MIN_STATE_SLOT ≤ slot ∧ slot ≤ MAX_STATE_SLOT) :=
  save_state_slots_bounded (fun _ => false) (fun _ => true) false (some ()) rfl

/-- Counterexample to C6 as stated: at the UI call sites the load result
is `unwrap`ped, so a malformed ROM makes the call site panic (modelled
`none` = process termination) instead of leaving the machine running in
its previous state. -/
theorem load_error_unwrap_counterexample :
    NES.new [0, 0, 0, 0] = Except.error LoadError.malformedHeader ∧
    mainInitNes (some [0, 0, 0, 0]) = none ∧
    showMenuOpen (some [0, 0, 0, 0]) (none : NES) = none :=
  ⟨rfl, rfl, rfl⟩

/-- C6 (amended): the core load operation reports malformed-header /
unsupported-mapper / truncated-data errors to the caller as an error
value and constructs no machine, and a successful load is what replaces
the machine at the call sites; but the call sites in `main` and
`show_menu` unwrap the result, so a failing load terminates the process
(modelled `none`) rather than keeping the machine in its previous
state. -/
theorem load_errors_reported_to_caller (rom : List Nat) (nes : NES) :
    (∀ e, NES.new rom = Except.error e → mainInitNes (some rom) = none ∧
       showMenuOpen (some rom) nes = none) ∧
    (∀ m, NES.new rom = Except.ok m →
       mainInitNes (some rom) = some (some m : NES) ∧
       showMenuOpen (some rom) nes = some (some m : NES)) ∧
    (rom.length < 16 → NES.new rom = Except.error LoadError.malformedHeader) ∧
    (16 ≤ rom.length → rom.take 4 ≠ INES_MAGIC →
       NES.new rom = Except.error LoadError.malformedHeader) ∧
    mainInitNes none = some (none : NES) ∧
    showMenuOpen none nes = some nes := by
  refine ⟨?_, ?_, ?_, ?_, rfl, rfl⟩
  · intro e he
    constructor
    · simp only [mainInitNes, he]
    · simp only [showMenuOpen, he]
  · intro m hm
    constructor
    · simp only [mainInitNes, hm]
    · simp only [showMenuOpen, hm]
  · intro hlen
    unfold NES.new
    rw [if_pos hlen]
  · intro hlen hmagic
    unfold NES.new
    rw [if_neg (by omega), if_pos hmagic]

/-- Witness for the amended C6: a concrete malformed ROM is reported and
panics the concrete call sites. -/
theorem load_errors_reported_to_caller_witness :
    NES.new [1, 2, 3] = Except.error LoadError.malformedHeader ∧
    mainInitNes (some [1, 2, 3]) = none ∧
    showMenuOpen (some [1, 2, 3]) (none : NES) = none := by
  have h := load_errors_reported_to_caller [1, 2, 3] (none : NES)
  have hmal := h.2.2.1 (by norm_num)
  exact ⟨hmal, (h.1 LoadError.malformedHeader hmal).1,
    (h.1 LoadError.malformedHeader hmal).2⟩

/-- C5: `load_state` fails with a reportable error on a truncated stream,
on a version tag different from the current version, and on a stream from
a different cartridge; and on any reported error the machine's prior
state is left unchanged (restore is all-or-nothing). -/
theorem load_state_all_or_nothing (m : Machine) (bytes : List Nat) :
    (bytes.length < 2 → ∃ e, m.load_state bytes = Except.error e) ∧
    (∀ v rest, bytes = v :: rest → v ≠ STATE_VERSION →
       m.load_state bytes = Except.error RestoreError.versionMismatch) ∧
    (∀ c body, bytes = STATE_VERSION :: c :: body → c ≠ m.cartridgeId →
       m.load_state bytes = Except.error RestoreError.cartridgeMismatch) ∧
    (∀ e, m.load_state bytes = Except.error e →
       applyLoadState m bytes = m) := by
  refine ⟨?_, ?_, ?_, ?_⟩
  · intro hlen
    match bytes, hlen with
    | [], _ => exact ⟨RestoreError.corrupt, rfl⟩
    | [v], _ =>
      by_cases hv : v = STATE_VERSION
      · subst hv
        exact ⟨RestoreError.corrupt, by simp [Machine.load_state]⟩
      · exact ⟨RestoreError.versionMismatch, by simp [Machine.load_state, hv]⟩
    | v :: c :: body, hlen =>
      simp only [List.length_cons] at hlen
      omega
  · intro v rest hb hv
    subst hb
    simp [Machine.load_state, hv]
  · intro c body hb hc
    subst hb
    simp [Machine.load_state, hc]
  · intro e he
    unfold applyLoadState
    rw [he]

/-- Witness for C5 at a concrete machine and a concrete
wrong-version stream. -/
theorem load_state_all_or_nothing_witness :
    Machine.load_state (initialMachine (mapper2Init 2 1) 7) [0, 7]
        = Except.error RestoreError.versionMismatch ∧
    applyLoadState (initialMachine (mapper2Init 2 1) 7) [0, 7]
        = initialMachine (mapper2Init 2 1) 7 := by
  have h := load_state_all_or_nothing (initialMachine (mapper2Init 2 1) 7)
    [0, 7]
  have h1 := h.2.1 0 [7] rfl (by decide)
  exact ⟨h1, h.2.2.2 RestoreError.versionMismatch h1⟩

/-- Reading back one scalar written by the serializer. -/
theorem dCPU_enc (c : CPUState) (rest : List Nat) :
    dCPU (encCPU c ++ rest) = some (c, rest) := rfl

/-- Reading back the controller section written by the serializer. -/
theorem dController_enc (c : ControllerState) (rest : List Nat) :
    dController (encController c ++ rest) = some (c, rest) := rfl

/-- Reading back one length-prefixed list written by the serializer. -/
theorem dList_enc (l rest : List Nat) :
    dList (encList l ++ rest) = some (l, rest) := by
  have hred : dList (l.length :: (l ++ rest))
      = if l.length ≤ (l ++ rest).length
        then some ((l ++ rest).take l.length, (l ++ rest).drop l.length)
        else none := rfl
  rw [show encList l ++ rest = l.length :: (l ++ rest) from rfl, hred,
    if_pos (by simp), List.take_left, List.drop_left]

/-- Reading back the PPU section written by the serializer. -/
theorem dPPU_enc (p : PPUState) (rest : List Nat) :
    dPPU (encPPU p ++ rest) = some (p, rest) := by
  have harg : encPPU p ++ rest
      = p.ctrl :: p.mask :: p.status :: p.dot ::
        (encList p.vram ++ (encList p.oam ++ (encList p.palette ++ rest))) := by
    simp [encPPU]
  rw [harg]
  show (do
    let (vram, bs) ← dList (encList p.vram
      ++ (encList p.oam ++ (encList p.palette ++ rest)))
    let (oam, bs) ← dList bs
    let (pal, bs) ← dList bs
    return ((⟨p.ctrl, p.mask, p.status, p.dot, vram, oam, pal⟩ : PPUState), bs))
    = some (p, rest)
  rw [dList_enc]
  show (do
    let (oam, bs) ← dList (encList p.oam ++ (encList p.palette ++ rest))
    let (pal, bs) ← dList bs
    return ((⟨p.ctrl, p.mask, p.status, p.dot, p.vram, oam, pal⟩
      : PPUState), bs)) = some (p, rest)
  rw [dList_enc]
  show (do
    let (pal, bs) ← dList (encList p.palette ++ rest)
    return ((⟨p.ctrl, p.mask, p.status, p.dot, p.vram, p.oam, pal⟩
      : PPUState), bs)) = some (p, rest)
  rw [dList_enc]
  rfl

/-- Reading back the APU section written by the serializer. -/
theorem dAPU_enc (a : APUState) (rest : List Nat) :
    dAPU (encAPU a ++ rest) = some (a, rest) := by
  have harg : encAPU a ++ rest
      = a.pulse1 :: a.pulse2 :: a.triangle :: a.noise :: a.dmc :: a.frameSeq ::
        (encList a.audioBuffer ++ rest) := by
    simp [encAPU]
  rw [harg]
  show (do
    let (buf, bs) ← dList (encList a.audioBuffer ++ rest)
    return ((⟨a.pulse1, a.pulse2, a.triangle, a.noise, a.dmc, a.frameSeq, buf⟩
      : APUState), bs)) = some (a, rest)
  rw [dList_enc]
  rfl

/-- Reading back the mapper section written by the serializer. -/
theorem dMapper_enc (s : Mapper2State) (rest : List Nat) :
    dMapper (encMapper s ++ rest) = some (s, rest) := by
  have harg : encMapper s ++ rest
      = s.prgCount :: s.chrCount :: s.prgBank :: (encList s.prgRam ++ rest) := by
    simp [encMapper]
  rw [harg]
  show (do
    let (ram, bs) ← dList (encList s.prgRam ++ rest)
    return ((⟨s.prgCount, s.chrCount, s.prgBank, ram⟩ : Mapper2State), bs))
    = some (s, rest)
  rw [dList_enc]
  rfl

/-- Reading back the full machine body written by the serializer. -/
theorem dMachineBody_enc (cid : Nat) (cpu : CPUState) (ppu : PPUState)
    (apu : APUState) (ctrl : ControllerState) (map : Mapper2State)
    (rest : List Nat) :
    dMachineBody cid (encCPU cpu ++ (encPPU ppu ++ (encAPU apu
        ++ (encController ctrl ++ (encMapper map ++ rest)))))
      = some (⟨cpu, ppu, apu, ctrl, map, cid⟩, rest) := by
  unfold dMachineBody
  rw [dCPU_enc]
  simp only [Option.bind_eq_bind, Option.some_bind]
  rw [dPPU_enc]
  simp only [Option.some_bind]
  rw [dAPU_enc]
  simp only [Option.some_bind]
  rw [dController_enc]
  simp only [Option.some_bind]
  rw [dMapper_enc]
  rfl

/-- Reduction of `load_state` on a stream with the current version tag and
the machine's own cartridge identifier. -/
theorem load_state_current (m : Machine) (body : List Nat) :
    m.load_state (STATE_VERSION :: m.cartridgeId :: body)
      = match dMachineBody m.cartridgeId body with
        | none => Except.error RestoreError.corrupt
        | some (m', _) =>
          if m'.wf then Except.ok m' else Except.error RestoreError.corrupt := by
  show (if STATE_VERSION ≠ STATE_VERSION
    then Except.error RestoreError.versionMismatch
    else if m.cartridgeId ≠ m.cartridgeId
      then Except.error RestoreError.cartridgeMismatch
      else match dMachineBody m.cartridgeId body with
        | none => Except.error RestoreError.corrupt
        | some (m', _) =>
          if m'.wf then Except.ok m' else Except.error RestoreError.corrupt) = _
  rw [if_neg (by simp), if_neg (by simp)]

/-- C4: `load_state` after `save_state` reproduces the machine exactly —
in particular bit-identical CPU, PPU, APU, Mapper and Controller state —
and therefore identical subsequent frame buffers for every number of
further frames. -/
theorem save_load_state_roundtrip (m : Machine) (h : m.wf = true) :
    m.load_state m.save_state = Except.ok m ∧
    (∀ m2, m.load_state m.save_state = Except.ok m2 →
      m2.cpu = m.cpu ∧ m2.ppu = m.ppu ∧ m2.apu = m.apu ∧
      m2.controller = m.controller ∧ m2.mapper = m.mapper ∧
      ∀ n, stepFrames m2 n = stepFrames m n) := by
  have hload : m.load_state m.save_state = Except.ok m := by
    have hbody : encCPU m.cpu ++ encPPU m.ppu ++ encAPU m.apu
        ++ encController m.controller ++ encMapper m.mapper
        = encCPU m.cpu ++ (encPPU m.ppu ++ (encAPU m.apu
          ++ (encController m.controller ++ (encMapper m.mapper ++ [])))) := by
      simp [List.append_assoc]
    show m.load_state (STATE_VERSION :: m.cartridgeId :: (encCPU m.cpu
      ++ encPPU m.ppu ++ encAPU m.apu ++ encController m.controller
      ++ encMapper m.mapper)) = Except.ok m
    rw [hbody, load_state_current, dMachineBody_enc]
    show (if m.wf then Except.ok m else Except.error RestoreError.corrupt)
      = Except.ok m
    rw [if_pos h]
  refine ⟨hload, fun m2 hm2 => ?_⟩
  have : m2 = m := by
    rw [hload] at hm2
    exact (Except.ok.inj hm2).symm
  subst this
  exact ⟨rfl, rfl, rfl, rfl, rfl, fun n => rfl⟩

/-- Witness for C4 at a concrete loaded machine. -/
theorem save_load_state_roundtrip_witness :
    (initialMachine (mapper2Init 2 1) 7).wf = true ∧
    Machine.load_state (initialMachine (mapper2Init 2 1) 7)
        (Machine.save_state (initialMachine (mapper2Init 2 1) 7))
      = Except.ok (initialMachine (mapper2Init 2 1) 7) := by
  have hwf : (initialMachine (mapper2Init 2 1) 7).wf = true := by
    simp only [Machine.wf, initialMachine, mapper2Init, List.length_replicate]
    norm_num [RAM_SIZE, DOTS_PER_FRAME]
  exact ⟨hwf, (save_load_state_roundtrip (initialMachine (mapper2Init 2 1) 7)
    hwf).1⟩

/-- A cycle crosses VBlank entry exactly from the three dots preceding
the VBlank dot. -/
theorem crossesVBlank_iff (d : Nat) (h : d < DOTS_PER_FRAME) :
    crossesVBlank d = true
      ↔ (d = VBLANK_DOT - 3 ∨ d = VBLANK_DOT - 2 ∨ d = VBLANK_DOT - 1) := by
  unfold DOTS_PER_FRAME at h
  unfold crossesVBlank VBLANK_DOT DOTS_PER_FRAME
  simp only [Bool.or_eq_true, beq_iff_eq]
  omega

/-- The distance measure is zero exactly on crossing cycles. -/
theorem distToVBlank_zero_iff (d : Nat) (h : d < DOTS_PER_FRAME) :
    distToVBlank d = 0 ↔ crossesVBlank d = true := by
  rw [crossesVBlank_iff d h]
  unfold DOTS_PER_FRAME at h
  unfold distToVBlank VBLANK_DOT DOTS_PER_FRAME
  omega

/-- A non-crossing cycle decreases the distance measure by exactly one. -/
theorem distToVBlank_step (d : Nat) (h : d < DOTS_PER_FRAME)
    (hc : crossesVBlank d = false) :
    distToVBlank ((d + 3) % DOTS_PER_FRAME) + 1 = distToVBlank d := by
  have hns : ¬(d = VBLANK_DOT - 3 ∨ d = VBLANK_DOT - 2 ∨ d = VBLANK_DOT - 1) := by
    intro hmem
    rw [← crossesVBlank_iff d h] at hmem
    rw [hc] at hmem
    cases hmem
  unfold DOTS_PER_FRAME at h
  unfold VBLANK_DOT at hns
  unfold distToVBlank VBLANK_DOT DOTS_PER_FRAME
  omega

/-- The distance measure is bounded by one frame's worth of CPU cycles. -/
theorem distToVBlank_lt (d : Nat) :
    distToVBlank d < CYCLES_PER_FRAME := by
  unfold distToVBlank VBLANK_DOT DOTS_PER_FRAME CYCLES_PER_FRAME
  omega

/-- The frame loop with enough fuel observes VBlank entry and consumes
exactly `distToVBlank` plus one CPU cycles. -/
theorem clockFrameAux_spec (fuel : Nat) :
    ∀ m : Machine, m.ppu.dot < DOTS_PER_FRAME →
      distToVBlank m.ppu.dot < fuel →
      (clockFrameAux fuel m).2.2 = true ∧
      (clockFrameAux fuel m).2.1 = distToVBlank m.ppu.dot + 1 := by
  induction fuel with
  | zero =>
    intro m _ hd
    omega
  | succ f ih =>
    intro m hdot hdist
    by_cases hc : crossesVBlank m.ppu.dot = true
    · have h0 : distToVBlank m.ppu.dot = 0 := (distToVBlank_zero_iff _ hdot).mpr hc
      simp [clockFrameAux, hc, h0]
    · have hcf : crossesVBlank m.ppu.dot = false := by
        revert hc
        cases crossesVBlank m.ppu.dot <;> simp
      have hd' : (machineCycle m).ppu.dot = (m.ppu.dot + 3) % DOTS_PER_FRAME := rfl
      have hlt : (machineCycle m).ppu.dot < DOTS_PER_FRAME := by
        rw [hd']
        exact Nat.mod_lt _ (by norm_num [DOTS_PER_FRAME])
      have hstep := distToVBlank_step m.ppu.dot hdot hcf
      have hrec := ih (machineCycle m) hlt (by rw [hd']; omega)
      simp only [clockFrameAux, hcf, Bool.false_eq_true, if_false]
      refine ⟨hrec.1, ?_⟩
      rw [hrec.2, hd']
      omega

/-- Iterating non-final cycles tracks the distance measure. -/
theorem distToVBlank_iterate (d0 : Nat) (h : d0 < DOTS_PER_FRAME) :
    ∀ j, j ≤ distToVBlank d0 →
      distToVBlank ((d0 + 3 * j) % DOTS_PER_FRAME) = distToVBlank d0 - j := by
  intro j
  induction j with
  | zero =>
    intro _
    rw [Nat.mul_zero, Nat.add_zero, Nat.mod_eq_of_lt h, Nat.sub_zero]
  | succ k ih =>
    intro hk
    have hk' : k ≤ distToVBlank d0 := by omega
    have hprev := ih hk'
    have hplt : (d0 + 3 * k) % DOTS_PER_FRAME < DOTS_PER_FRAME :=
      Nat.mod_lt _ (by norm_num [DOTS_PER_FRAME])
    have hnc : crossesVBlank ((d0 + 3 * k) % DOTS_PER_FRAME) = false := by
      by_contra hbc
      have : crossesVBlank ((d0 + 3 * k) % DOTS_PER_FRAME) = true := by
        revert hbc
        cases crossesVBlank ((d0 + 3 * k) % DOTS_PER_FRAME) <;> simp
      have := (distToVBlank_zero_iff _ hplt).mpr this
      omega
    have hstep := distToVBlank_step _ hplt hnc
    have hmod : (((d0 + 3 * k) % DOTS_PER_FRAME) + 3) % DOTS_PER_FRAME
        = (d0 + 3 * (k + 1)) % DOTS_PER_FRAME := by
      unfold DOTS_PER_FRAME
      omega
    rw [← hmod]
    omega

/-- Exactly one of the cycles executed by one frame call crosses VBlank
entry. -/
theorem vblank_count_one (d0 : Nat) (h : d0 < DOTS_PER_FRAME) :
    (List.range (distToVBlank d0 + 1)).countP
      (fun j => crossesVBlank ((d0 + 3 * j) % DOTS_PER_FRAME)) = 1 := by
  rw [List.range_succ, List.countP_append]
  have hlast : crossesVBlank ((d0 + 3 * distToVBlank d0) % DOTS_PER_FRAME)
      = true := by
    have hit := distToVBlank_iterate d0 h (distToVBlank d0) (Nat.le_refl _)
    rw [Nat.sub_self] at hit
    exact (distToVBlank_zero_iff _ (Nat.mod_lt _ (by norm_num [DOTS_PER_FRAME]))).mp hit
  have hzero : (List.range (distToVBlank d0)).countP
      (fun j => crossesVBlank ((d0 + 3 * j) % DOTS_PER_FRAME)) = 0 := by
    rw [List.countP_eq_zero]
    intro j hj
    have hjlt := List.mem_range.mp hj
    have hit := distToVBlank_iterate d0 h j (by omega)
    by_contra hbc
    have hbt : crossesVBlank ((d0 + 3 * j) % DOTS_PER_FRAME) = true := by
      revert hbc
      cases crossesVBlank ((d0 + 3 * j) % DOTS_PER_FRAME) <;> simp
    have := (distToVBlank_zero_iff _
      (Nat.mod_lt _ (by norm_num [DOTS_PER_FRAME]))).mpr hbt
    omega
  rw [hzero]
  simp [List.countP_cons, hlast]

/-- C7: for every loaded machine, `clock_for_frame` observes VBlank entry
(the loop finds it before the fuel bound), consumes at least one and at
most one frame's worth of CPU cycles, never performing any I/O, and the
VBlank entry is crossed exactly once among the executed cycles. -/
theorem clock_for_frame_bounded_vblank_once (m : Machine)
    (h : m.ppu.dot < DOTS_PER_FRAME) :
    (Machine.clock_for_frame m).2.2 = true ∧
    1 ≤ (Machine.clock_for_frame m).2.1 ∧
    (Machine.clock_for_frame m).2.1 ≤ CYCLES_PER_FRAME ∧
    (List.range (Machine.clock_for_frame m).2.1).countP
      (fun j => crossesVBlank ((m.ppu.dot + 3 * j) % DOTS_PER_FRAME)) = 1 := by
  have hdlt := distToVBlank_lt m.ppu.dot
  have hspec := clockFrameAux_spec CYCLES_PER_FRAME m h hdlt
  have hcy : (Machine.clock_for_frame m).2.1 = distToVBlank m.ppu.dot + 1 :=
    hspec.2
  refine ⟨hspec.1, by omega, by omega, ?_⟩
  rw [hcy]
  exact vblank_count_one m.ppu.dot h

/-- Witness for C7 at a concrete loaded machine (power-on dot counter). -/
theorem clock_for_frame_bounded_vblank_once_witness :
    (initialMachine (mapper2Init 2 1) 7).ppu.dot < DOTS_PER_FRAME ∧
    (Machine.clock_for_frame (initialMachine (mapper2Init 2 1) 7)).2.2
      = true := by
  have hdot : (initialMachine (mapper2Init 2 1) 7).ppu.dot < DOTS_PER_FRAME := by
    norm_num [initialMachine, DOTS_PER_FRAME]
  exact ⟨hdot,
    (clock_for_frame_bounded_vblank_once (initialMachine (mapper2Init 2 1) 7)
      hdot).1⟩

/-- One CPU cycle preserves machine consistency. -/
theorem wf_machineCycle (m : Machine) (h : m.wf = true) :
    (machineCycle m).wf = true := by
  simp only [Machine.wf, machineCycle, Bool.and_eq_true, decide_eq_true_eq,
    beq_iff_eq] at h ⊢
  refine ⟨⟨⟨h.1.1.1, h.1.1.2⟩, h.1.2⟩, ?_⟩
  exact Nat.mod_lt _ (by norm_num [DOTS_PER_FRAME])

/-- The frame loop preserves machine consistency. -/
theorem wf_clockFrameAux (fuel : Nat) :
    ∀ m : Machine, m.wf = true → (clockFrameAux fuel m).1.wf = true := by
  induction fuel with
  | zero =>
    intro m h
    exact h
  | succ f ih =>
    intro m h
    by_cases hc : crossesVBlank m.ppu.dot = true
    · simp only [clockFrameAux, hc, if_true]
      exact wf_machineCycle m h
    · have hcf : crossesVBlank m.ppu.dot = false := by
        revert hc
        cases crossesVBlank m.ppu.dot <;> simp
      simp only [clockFrameAux, hcf, Bool.false_eq_true, if_false]
      exact ih (machineCycle m) (wf_machineCycle m h)

/-- A bus write preserves machine consistency. -/
theorem wf_busWrite (m : Machine) (a data : Nat) (h : m.wf = true) :
    (m.busWrite a data).wf = true := by
  simp only [Machine.wf, Bool.and_eq_true, decide_eq_true_eq, beq_iff_eq] at h
  unfold Machine.busWrite
  split
  · simp only [Machine.wf, mapper2, Mapper.map_write, mapper2Write,
      Bool.and_eq_true, decide_eq_true_eq, beq_iff_eq]
    split
    · exact ⟨⟨⟨h.1.1.1, h.1.1.2⟩, h.1.2⟩, h.2⟩
    · split
      · refine ⟨⟨⟨h.1.1.1, h.1.1.2⟩, ?_⟩, h.2⟩
        rw [List.length_set]
        exact h.1.2
      · refine ⟨⟨⟨h.1.1.1, Nat.mod_lt _ h.1.1.1⟩, h.1.2⟩, h.2⟩
  · simp only [Machine.wf, Bool.and_eq_true, decide_eq_true_eq, beq_iff_eq]
    exact h

/-- A reset preserves machine consistency. -/
theorem wf_reset (m : Machine) (h : m.wf = true) :
    m.reset.wf = true := by
  simp only [Machine.wf, Machine.reset, Bool.and_eq_true, decide_eq_true_eq,
    beq_iff_eq] at h ⊢
  exact ⟨⟨⟨h.1.1.1, h.1.1.2⟩, h.1.2⟩, by norm_num [DOTS_PER_FRAME]⟩

/-- A successful restore only ever produces a consistent machine (the
decoded bank invariants are validated before the machine is accepted). -/
theorem wf_load_state (m m' : Machine) (bytes : List Nat)
    (heq : m.load_state bytes = Except.ok m') : m'.wf = true := by
  unfold Machine.load_state at heq
  split at heq
  · cases heq
  · split at heq
    · cases heq
    · split at heq
      · cases heq
      · split at heq
        · cases heq
        · split at heq
          · cases heq
          · split at heq
            · cases heq
              assumption
            · cases heq

/-- C9: the machine is always either empty or loaded-and-consistent:
frame stepping, audio draining, bus writes and reset preserve the
invariant, a state restore either aborts the process at the `unwrap`
(`load_state_slot` yields `none`, so no machine state survives it) or
yields an invariant-satisfying machine, and on an empty machine each of
these operations is a no-op that changes no machine state. -/
theorem machine_empty_or_loaded_invariant (nes : NES) (bytes : List Nat)
    (a data : Nat) (h : NES.Inv nes) :
    NES.Inv (NES.clock_for_frame nes) ∧
    NES.Inv (NES.drain nes).2 ∧
    (∀ nes2, NES.load_state_slot nes bytes = some nes2 → NES.Inv nes2) ∧
    (∀ m2 e, nes = some m2 → m2.load_state bytes = Except.error e →
      NES.load_state_slot nes bytes = none) ∧
    NES.Inv (NES.busWrite nes a data) ∧
    NES.Inv (NES.reset nes) ∧
    (NES.is_empty nes = true →
      NES.clock_for_frame nes = nes ∧ NES.drain nes = ([], nes) ∧
      NES.load_state_slot nes bytes = some nes ∧
      NES.busWrite nes a data = nes ∧ NES.reset nes = nes) := by
  cases nes with
  | none =>
    refine ⟨trivial, trivial, ?_, ?_, trivial, trivial,
      fun _ => ⟨rfl, rfl, rfl, rfl, rfl⟩⟩
    · intro nes2 heq
      cases heq
      trivial
    · intro m2 e heq _
      cases heq
  | some m =>
    have hm : m.wf = true := h
    refine ⟨?_, ?_, ?_, ?_, ?_, ?_, ?_⟩
    · exact wf_clockFrameAux CYCLES_PER_FRAME m hm
    · show (drain_audio_samples m).2.wf = true
      simp only [Machine.wf, drain_audio_samples, Bool.and_eq_true,
        decide_eq_true_eq, beq_iff_eq] at hm ⊢
      exact hm
    · intro nes2 heq
      have hred : NES.load_state_slot (some m) bytes
          = match m.load_state bytes with
            | Except.ok m' => some (some m' : NES)
            | Except.error _ => none := rfl
      rw [hred] at heq
      cases hls : m.load_state bytes with
      | ok m' =>
        rw [hls] at heq
        cases heq
        exact wf_load_state m m' bytes hls
      | error e =>
        rw [hls] at heq
        cases heq
    · intro m2 e heq herr
      cases heq
      show (match m.load_state bytes with
        | Except.ok m' => some (some m' : NES)
        | Except.error _ => none) = none
      rw [herr]
    · exact wf_busWrite m a data hm
    · exact wf_reset m hm
    · intro he
      cases he

/-- Witness for C9 at a concrete loaded machine and concrete operation
arguments. -/
theorem machine_empty_or_loaded_invariant_witness :
    NES.Inv (some (initialMachine (mapper2Init 2 1) 7) : NES) ∧
    NES.Inv (NES.clock_for_frame (some (initialMachine (mapper2Init 2 1) 7))) ∧
    NES.Inv (NES.busWrite (some (initialMachine (mapper2Init 2 1) 7))
      0x8000 3) := by
  have hwf : NES.Inv (some (initialMachine (mapper2Init 2 1) 7) : NES) := by
    show (initialMachine (mapper2Init 2 1) 7).wf = true
    simp only [Machine.wf, initialMachine, mapper2Init, List.length_replicate]
    norm_num [RAM_SIZE, DOTS_PER_FRAME]
  have h := machine_empty_or_loaded_invariant
    (some (initialMachine (mapper2Init 2 1) 7)) [] 0x8000 3 hwf
  exact ⟨hwf, h.1, h.2.2.2.2.1⟩
